import Mathlib

/-!
# Verification of the `gen-c` project scaffolder

Shallow embedding of `src/genc.py`, a script that scaffolds a new C++
project: it derives a lowercase token from the project name, creates a
directory tree, writes template-rendered files, initializes a git
repository and registers submodules.

Strings from the script are modelled as `String` / `List Char` with ASCII
case semantics (the script's regex `[A-Z]` only matches ASCII uppercase).
The filesystem is modelled as an association list from absolute paths
(lists of components, as the OS resolves the `/`-joined strings the script
builds) to entries; `os.mkdir`, `shutil.rmtree` and `open(..., 'w')` are
modelled with their documented success and failure behaviour.  The git
library (`git.Repo`, `git.Submodule`) is external to the repository and is
modelled abstractly as repository state (active branch and registered
submodules); its internal on-disk metadata is out of scope, as the spec
declares version-control internals.
-/

namespace GenC

/-- ASCII uppercase test: the script's regex character class `[A-Z]`. -/
def isUpperA (c : Char) : Bool :=
  decide (65 ≤ c.toNat ∧ c.toNat ≤ 90)

/-- ASCII lowercasing of one character; models Python `str.lower()` on the
ASCII range, which is the only range the claims exercise. -/
def lowerChar (c : Char) : Char :=
  if isUpperA c then Char.ofNat (c.toNat + 32) else c

/-- Tail of the substitution `re.sub(r'(?<!^)(?=[A-Z])', '_', name)`: every
position after the first that is followed by an ASCII uppercase letter
receives an underscore. -/
def insertSepAux : List Char → List Char
  | [] => []
  | c :: rest => (if isUpperA c then ['_', c] else [c]) ++ insertSepAux rest

/-- The substitution `re.sub(r'(?<!^)(?=[A-Z])', '_', name)`: the zero-width
pattern never matches at the start of the string, so the first character is
copied unchanged. -/
def insertSep : List Char → List Char
  | [] => []
  | c :: rest => c :: insertSepAux rest

/-- `Project.name_for_folder`: `re.sub(r'(?<!^)(?=[A-Z])', '_', name).lower()`. -/
def name_for_folder (name : String) : String :=
  ⟨(insertSep name.data).map lowerChar⟩

/-- Spec-worded derivation (`spec.md` §4.1), for comparison with
`name_for_folder`: "insert a separator before every uppercase letter that is
not the first character, then lowercase the whole string". -/
def deriveSpec (name : String) : String :=
  ⟨(name.data.enum.flatMap fun ic =>
      if ic.1 ≠ 0 ∧ isUpperA ic.2 then ['_', ic.2] else [ic.2]).map lowerChar⟩

theorem toNat_ofNat_of_valid (n : Nat) (h : n.isValidChar) :
    (Char.ofNat n).toNat = n := by
  rw [Char.ofNat, dif_pos h]
  rfl

theorem lowerChar_not_upper (c : Char) : isUpperA (lowerChar c) = false := by
  unfold lowerChar
  by_cases h : isUpperA c = true
  · rw [if_pos h]
    have hb : 65 ≤ c.toNat ∧ c.toNat ≤ 90 := by simpa [isUpperA] using h
    have hv : (c.toNat + 32).isValidChar := Or.inl (by omega)
    unfold isUpperA
    rw [toNat_ofNat_of_valid _ hv]
    simp only [decide_eq_false_iff_not]
    omega
  · rw [if_neg h]
    exact Bool.eq_false_iff.mpr h

theorem lowerChar_idem (c : Char) : lowerChar (lowerChar c) = lowerChar c := by
  conv_lhs => rw [lowerChar]
  rw [lowerChar_not_upper]
  simp

/-- On a string with no ASCII uppercase letters, the substitution inserts
nothing. -/
theorem insertSepAux_of_no_upper (l : List Char)
    (h : ∀ c ∈ l, isUpperA c = false) : insertSepAux l = l := by
  induction l with
  | nil => rfl
  | cons c rest ih =>
    have hc : isUpperA c = false := h c (by simp)
    simp only [insertSepAux, hc, Bool.false_eq_true, if_false, List.singleton_append,
      List.cons.injEq, true_and]
    exact ih fun x hx => h x (by simp [hx])

theorem insertSep_of_no_upper (l : List Char)
    (h : ∀ c ∈ l, isUpperA c = false) : insertSep l = l := by
  cases l with
  | nil => rfl
  | cons c rest =>
    simp only [insertSep, List.cons.injEq, true_and]
    exact insertSepAux_of_no_upper rest fun x hx => h x (by simp [hx])

theorem name_for_folder_no_upper (s : String) :
    ∀ c ∈ (name_for_folder s).data, isUpperA c = false := by
  intro c hc
  unfold name_for_folder at hc
  simp only [List.mem_map] at hc
  obtain ⟨a, _, rfl⟩ := hc
  exact lowerChar_not_upper a

/-- Relate the index-based spec description to the recursive substitution:
away from index 0 every uppercase letter receives a separator. -/
theorem enumFrom_flatMap_eq_insertSepAux (l : List Char) :
    ∀ n, n ≠ 0 →
      (List.enumFrom n l).flatMap
        (fun ic => if ic.1 ≠ 0 ∧ isUpperA ic.2 then ['_', ic.2] else [ic.2])
      = insertSepAux l := by
  induction l with
  | nil => intro n _; rfl
  | cons c rest ih =>
    intro n hn
    simp only [List.enumFrom, List.flatMap_cons, insertSepAux]
    rw [ih (n + 1) (by omega)]
    by_cases hu : isUpperA c = true
    · simp [hn, hu]
    · simp only [Bool.not_eq_true] at hu
      simp [hn, hu]

theorem name_for_folder_eq_deriveSpec (s : String) :
    name_for_folder s = deriveSpec s := by
  unfold name_for_folder deriveSpec
  cases hd : s.data with
  | nil => rfl
  | cons c rest =>
    simp only [List.enum]
    simp only [List.enumFrom, List.flatMap_cons, insertSep]
    rw [enumFrom_flatMap_eq_insertSepAux rest 1 (by omega)]
    simp

/-- **C1.** For every non-empty name string, `Project.name_for_folder`
returns the string obtained by inserting `'_'` before every ASCII uppercase
letter that is not the first character and lowercasing the result; in
particular `"MyProject"` yields `"my_project"` and `"ABC"` yields `"a_b_c"`. -/
theorem c1_name_for_folder_spec :
    (∀ s : String, s ≠ "" → name_for_folder s = deriveSpec s) ∧
    name_for_folder ("MyProject") = "my_project" ∧
    name_for_folder ("ABC") = "a_b_c" := by
  refine ⟨fun s _ => name_for_folder_eq_deriveSpec s, ?_, ?_⟩ <;> decide

/-- Witness for C1: the hypotheses are satisfiable at the concrete name
`"MyProject"`. -/
theorem c1_name_for_folder_spec_witness :
    name_for_folder ("MyProject") = deriveSpec ("MyProject") ∧
    name_for_folder ("MyProject") = "my_project" :=
  ⟨c1_name_for_folder_spec.1 ("MyProject") (by decide),
   c1_name_for_folder_spec.2.1⟩

/-- **C8.** The Name Deriver is idempotent — deriving from its own output
yields the same token — and its output contains no (ASCII) uppercase
characters. -/
theorem c8_name_for_folder_idempotent :
    ∀ s : String,
      name_for_folder (name_for_folder s) = name_for_folder s ∧
      ∀ c ∈ (name_for_folder s).data, isUpperA c = false := by
  intro s
  refine ⟨?_, name_for_folder_no_upper s⟩
  have hno := name_for_folder_no_upper s
  conv_lhs => rw [name_for_folder]
  rw [insertSep_of_no_upper _ hno]
  have : ((name_for_folder s).data.map lowerChar) = (name_for_folder s).data := by
    apply List.map_congr_left ?_ |>.trans (List.map_id _)
    intro c hc
    have := hno c hc
    simp [lowerChar, this]
  rw [this]

/-- Witness for C8 at the concrete name `"MyProject"`. -/
theorem c8_name_for_folder_idempotent_witness :
    name_for_folder (name_for_folder ("MyProject")) = name_for_folder ("MyProject") ∧
    isUpperA 'm' = false :=
  ⟨(c8_name_for_folder_idempotent ("MyProject")).1,
   (c8_name_for_folder_idempotent ("MyProject")).2 'm' (by decide)⟩

/-- Python `str.replace(pat, rep)`: replace non-overlapping occurrences left
to right.  The recursion is structural on a fuel argument that starts at
the length of the string; each step consumes at least one character (the
`pat ≠ []` guard — the script only ever calls replace with the non-empty
marker), so the fuel never runs out before the string does. -/
def replaceAllAux (pat rep : List Char) : Nat → List Char → List Char
  | _, [] => []
  | 0, s => s
  | fuel + 1, c :: rest =>
    if pat.isPrefixOf (c :: rest) ∧ pat ≠ [] then
      rep ++ replaceAllAux pat rep fuel ((c :: rest).drop pat.length)
    else
      c :: replaceAllAux pat rep fuel rest

/-- Python `str.replace(pat, rep)` on character lists. -/
def replaceAll (pat rep s : List Char) : List Char :=
  replaceAllAux pat rep s.length s

/-- `str.replace` lifted to `String`. -/
def pyReplace (s pat rep : String) : String :=
  ⟨replaceAll pat.data rep.data s.data⟩

/-- Substring test (used only to state claims about generated contents). -/
def containsSub (pat s : List Char) : Bool :=
  s.tails.any fun t => pat.isPrefixOf t

/-- Substring test on `String`. -/
def containsStr (pat s : String) : Bool :=
  containsSub pat.data s.data

/-- The placeholder marker of the Template Catalog. -/
def marker : String := "#PROJECT_NAME#"

/-- Split a character list on `'/'`, dropping empty components: how the OS
resolves the slash-joined path strings the script builds (so `"a//b"`,
`"a/b/"` and `"/a/b"` all resolve by components). -/
def splitSlashAux (cur : List Char) : List Char → List (List Char)
  | [] => if cur.isEmpty then [] else [cur.reverse]
  | c :: rest =>
    if c = '/' then
      if cur.isEmpty then splitSlashAux [] rest
      else cur.reverse :: splitSlashAux [] rest
    else splitSlashAux (c :: cur) rest

/-- Path components of a string. -/
def splitSlash (s : String) : List String :=
  (splitSlashAux [] s.data).map String.mk

/-- An absolute filesystem path, as a list of components. -/
abbrev Path := List String

/-- A filesystem entry: a directory or a regular file with its content. -/
inductive Entry where
  | dir : Entry
  | file (content : String) : Entry
deriving DecidableEq

/-- The filesystem: an association list from absolute paths to entries;
the first binding for a path is its current entry. -/
abbrev FS := List (Path × Entry)

def lookupFS : FS → Path → Option Entry
  | [], _ => none
  | (q, e) :: rest, p => if q = p then some e else lookupFS rest p

/-- `os.path.isdir`. -/
def isDirFS (fs : FS) (p : Path) : Bool :=
  decide (lookupFS fs p = some Entry.dir)

/-- The exception classes the script can hit, plus a class for failures of
the external git library. -/
inductive PyError where
  | fileExists
  | fileNotFound
  | notADirectory
  | isADirectory
  | gitError
deriving DecidableEq

/-- `os.mkdir`: fails with `FileExistsError` if the path already exists (as
a file or directory), and with `FileNotFoundError`/`NotADirectoryError`
(collapsed into one class here) if the parent is not an existing directory;
otherwise records the new directory. -/
def mkdir (p : Path) (fs : FS) : Except PyError FS :=
  if (lookupFS fs p).isSome then .error .fileExists
  else if p.dropLast.isEmpty || isDirFS fs p.dropLast then .ok ((p, .dir) :: fs)
  else .error .fileNotFound

/-- `shutil.rmtree`: fails unless the path is a directory; otherwise removes
the directory together with everything below it. -/
def rmtree (p : Path) (fs : FS) : Except PyError FS :=
  if isDirFS fs p then .ok (fs.filter fun qe => !(p.isPrefixOf qe.1))
  else .error .notADirectory

/-- `open(path, 'w')` followed by `write`: fails if the path is a directory
or its parent is not an existing directory; otherwise creates or truncates
the file.  The new binding shadows any previous one for the same path. -/
def writeFile (p : Path) (c : String) (fs : FS) : Except PyError FS :=
  if isDirFS fs p then .error .isADirectory
  else if p.dropLast.isEmpty || isDirFS fs p.dropLast then .ok ((p, .file c) :: fs)
  else .error .fileNotFound

/-- Run `mkdir` over a list of paths in order, stopping at the first
failure and keeping the directories already created (as the script's
`for` loop does when an exception escapes it). -/
def mkdirs : List Path → FS → FS × Option PyError
  | [], fs => (fs, none)
  | p :: rest, fs =>
    match mkdir p fs with
    | .error e => (fs, some e)
    | .ok fs₁ => mkdirs rest fs₁

/-- Run `writeFile` over path/content pairs in order, stopping at the first
failure and keeping the files already written. -/
def writeAll : List (Path × String) → FS → FS × Option PyError
  | [], fs => (fs, none)
  | (p, c) :: rest, fs =>
    match writeFile p c fs with
    | .error e => (fs, some e)
    | .ok fs₁ => writeAll rest fs₁

/-- State of the git repository created by the external git library:
the active branch and the registered submodules (name, path, url).
The library's on-disk metadata is opaque to the script and not modelled. -/
structure RepoState where
  branch : String
  submodules : List (String × String × String)
deriving DecidableEq

/-- The world the script mutates: the filesystem and the repository. -/
structure World where
  fs : FS
  repo : Option RepoState
deriving DecidableEq

/-- `ProjectConfig`: the parsed command-line options backing `Project`. -/
structure Config where
  name : String
  dir : Path
  tests : Bool
  benchmark : Bool
  delete : Bool

/-- Outcome of a run: normal completion, or an escaped exception together
with the world at the moment it was raised (nothing is rolled back). -/
inductive RunResult where
  | ok (w : World)
  | aborted (e : PyError) (w : World)
deriving DecidableEq

def RunResult.world : RunResult → World
  | .ok w => w
  | .aborted _ w => w

def RunResult.isOk : RunResult → Bool
  | .ok _ => true
  | .aborted _ _ => false

/-- Sequencing with exception propagation, as statements in `Generate.go`. -/
def RunResult.andThen : RunResult → (World → RunResult) → RunResult
  | .ok w, f => f w
  | .aborted e w, _ => .aborted e w

/-- Lift a filesystem fold (`mkdirs`/`writeAll`) to a run step. -/
def liftFS (r : FS × Option PyError) (w : World) : RunResult :=
  match r.2 with
  | none => .ok { w with fs := r.1 }
  | some e => .aborted e { w with fs := r.1 }

namespace SourceFiles

/-- `SourceFiles.app`. -/
def app : String := "#include <iostream>\n#include <#PROJECT_NAME#/message.h>\n\nint main (int argc, char** argv) \x7b\n\tMessage msg;\n\tprintf(\"%s\\n\", msg.get_hello()->c_str());\n\treturn 0;\n\x7d\n"

/-- `SourceFiles.include_message_h`. -/
def include_message_h : String := "#pragma once\n\n#include <memory>\n#include <string>\n\nclass Message \x7b\npublic:\n\t[[nodiscard]] std::unique_ptr<std::string> get_hello() const;\n\x7d;\n"

/-- `SourceFiles.src_message_cpp`. -/
def src_message_cpp : String := "#include <#PROJECT_NAME#/message.h>\n\nusing std::make_unique;\nusing std::string;\nusing std::unique_ptr;\n\nunique_ptr<string> Message::get_hello() const \x7b\n\treturn make_unique<string>(\"Hello World!\");\n\x7d\n"

/-- `SourceFiles.tests_unit`. -/
def tests_unit : String := "#include <gtest/gtest.h>\n\n#include <#PROJECT_NAME#/message.h>\n\nTEST(MessageTests, get_hello) \x7b\n\tMessage m;\n\tASSERT_STREQ(\"Hello World!\", m.get_hello()->c_str());\n\x7d\n"

/-- `SourceFiles.tests_benchmark`. -/
def tests_benchmark : String := "#include <benchmark/benchmark.h>\n\n#include <#PROJECT_NAME#/message.h>\n\nstatic void get_hello(benchmark::State& state) \x7b\n\tMessage m;\n\tfor (auto _ : state)\n\t\tauto hello = m.get_hello();\n\x7d\n\nBENCHMARK(get_hello);\n"

end SourceFiles

namespace CmakeFiles

/-- `CmakeFiles.top_level`. -/
def top_level : String := "cmake_minimum_required(VERSION 3.18)\n\nproject(#PROJECT_NAME#\n\tLANGUAGES C CXX ASM\n\tVERSION 0.1.0\n)\n\nadd_subdirectory(app)\nadd_subdirectory(extern)\nadd_subdirectory(include)\nadd_subdirectory(src)\nadd_subdirectory(tests)\n"

/-- `CmakeFiles.app`. -/
def app : String := "set(target_name $\x7bCMAKE_PROJECT_NAME\x7d_cli)\n\nadd_executable($\x7btarget_name\x7d\n\tmain.cpp\n)\n\ntarget_link_libraries($\x7btarget_name\x7d\n\tPUBLIC\n\n\t$\x7bCMAKE_PROJECT_NAME\x7d_includes\n\t$\x7bCMAKE_PROJECT_NAME\x7d_lib\n)\n\nset_target_properties($\x7btarget_name\x7d\n\tPROPERTIES\n\t\tC_STANDARD 11\n\t\tCXX_STANDARD 17\n)\n\n"

/-- `CmakeFiles.includes`. -/
def includes : String := "set(target_name $\x7bCMAKE_PROJECT_NAME\x7d_includes)\n\nadd_library(\n\t$\x7btarget_name\x7d\n\tINTERFACE\n)\n\ntarget_include_directories(\n\t$\x7btarget_name\x7d\n\tINTERFACE\n\t$<BUILD_INTERFACE:$\x7bCMAKE_CURRENT_SOURCE_DIR\x7d>\n)\n"

/-- `CmakeFiles.src`. -/
def src : String := "set(target_name $\x7bCMAKE_PROJECT_NAME\x7d_lib)\n\nadd_library($\x7btarget_name\x7d\n\tOBJECT\n\tmessage.cpp\n)\n\ntarget_link_libraries(\n\t$\x7btarget_name\x7d\n\tPUBLIC\n\n\t$\x7bCMAKE_PROJECT_NAME\x7d_includes\n)\n\nset_target_properties($\x7btarget_name\x7d\n\tPROPERTIES\n\t\tC_STANDARD 11\n\t\tCXX_STANDARD 17\n)\n"

/-- `CmakeFiles.tests`. -/
def tests : String := "include(GoogleTest)\nenable_testing()\n\ninclude_directories(\"$\x7bCMAKE_SOURCE_DIR\x7d/src\")\n\nadd_subdirectory(benchmark)\nadd_subdirectory(unit)\n"

/-- `CmakeFiles.extern`; named `externFolder` because of Lean keywords. -/
def externFolder : String := "add_subdirectory(googletest)\nadd_subdirectory(benchmark)\n"

/-- `CmakeFiles.tests_unit`. -/
def tests_unit : String := "set(target_name tests-unit)\n\nadd_executable($\x7btarget_name\x7d\n\tmessage_tests.cpp\n)\n\nset_target_properties($\x7btarget_name\x7d\n\tPROPERTIES\n\t\tC_STANDARD 11\n\t\tCXX_STANDARD 17\n)\n\ntarget_link_libraries($\x7btarget_name\x7d\n\t$\x7bCMAKE_PROJECT_NAME\x7d_lib\n\t$\x7bCMAKE_PROJECT_NAME\x7d_includes\n\tgtest_main\n)\n\ngtest_discover_tests($\x7btarget_name\x7d)\n"

/-- `CmakeFiles.tests_benchmark`. -/
def tests_benchmark : String := "set(target_name tests-perf)\n\nadd_executable($\x7btarget_name\x7d\n\tmessage_perf.cpp\n)\n\nset_target_properties($\x7btarget_name\x7d\n\tPROPERTIES\n\t\tC_STANDARD 11\n\t\tCXX_STANDARD 17\n)\n\ntarget_link_libraries($\x7btarget_name\x7d\n\t$\x7bCMAKE_PROJECT_NAME\x7d_lib\n\t$\x7bCMAKE_PROJECT_NAME\x7d_includes\n\tbenchmark::benchmark_main\n)\n"

end CmakeFiles

namespace SupportFiles

/-- `SupportFiles.readme`. -/
def readme : String := "# Overview\n*Add high-level description about project*\n\n# Dependencies\n*Describe the things needed to build/use this project*\n\n# Resources\n*Provide some notes, links, etc. that help understand the context*\n"

/-- `SupportFiles.clang_format`. -/
def clang_format : String := "---\nLanguage: Cpp\nStandard: c++17\n\n# Alignment\nAlignAfterOpenBracket: Align\nAlignEscapedNewlines: Left\nAlignOperands: AlignAfterOperator\nAllowShortIfStatementsOnASingleLine: Never\nPointerAlignment: Left\nSpaceBeforeParens: ControlStatements\nSpaceBeforeAssignmentOperators: true\n\n# Tabs & Indent\nUseTab: ForIndentation\nTabWidth: 4\nIndentWidth: 4\nContinuationIndentWidth: 4\nAccessModifierOffset: -4\nNamespaceIndentation: None\nSpacesBeforeTrailingComments: 2\n\n# Line breaks\nColumnLimit: 0\nAllowShortBlocksOnASingleLine: Never\nAllowShortFunctionsOnASingleLine: None\nBinPackArguments: false\nBinPackParameters: false\nReflowComments: false\nConstructorInitializerAllOnOneLineOrOnePerLine: true\nBreakConstructorInitializersBeforeComma: true\nBreakBeforeBinaryOperators: NonAssignment\nBreakBeforeBraces: Custom\nBraceWrapping:\n  AfterClass: false\n  AfterControlStatement: Never\n  AfterEnum: false\n  AfterFunction: false\n  AfterNamespace: false\n  AfterStruct: false\n  AfterExternBlock: false\n  BeforeCatch: false\n  BeforeElse: false\n  IndentBraces: false\n...\n\n"

end SupportFiles

/-- The subdirectory plan of `Generate.build_folder_structure`, relative to
the base directory (the fifth entry interpolates the derived token into
`f"include/{...}"`, resolved into path components). -/
def folders (cfg : Config) : List Path :=
  [["app"], ["docs"], ["extern"], ["include"],
   ["include"] ++ splitSlash (name_for_folder cfg.name),
   ["src"], ["tests"], ["tests", "benchmark"], ["tests", "unit"]]

/-- The source-file plan of `Generate.create_source_files`: relative path
components and raw template content. -/
def source_files (cfg : Config) : List (Path × String) :=
  [(["app", "main.cpp"], SourceFiles.app),
   (["include"] ++ splitSlash (name_for_folder cfg.name) ++ ["message.h"],
      SourceFiles.include_message_h),
   (["src", "message.cpp"], SourceFiles.src_message_cpp),
   (["tests", "unit", "message_tests.cpp"], SourceFiles.tests_unit),
   (["tests", "benchmark", "message_perf.cpp"], SourceFiles.tests_benchmark)]

/-- The build-file plan of `Generate.build_cmake_structure`: the folder part
of `f"{dir}/{folder}/CMakeLists.txt"` resolved into components (so `""` and
`"app/"` become `[]` and `["app"]`), with the top-level template already
substituted with the raw project name, exactly as in the source (including
the duplicated `tests/` entry). -/
def cmake_files (cfg : Config) : List (Path × String) :=
  [([], pyReplace CmakeFiles.top_level marker cfg.name),
   (["app"], CmakeFiles.app),
   (["include"], CmakeFiles.includes),
   (["src"], CmakeFiles.src),
   (["tests"], CmakeFiles.tests),
   (["extern"], CmakeFiles.externFolder),
   (["tests"], CmakeFiles.tests),
   (["tests", "unit"], CmakeFiles.tests_unit),
   (["tests", "benchmark"], CmakeFiles.tests_benchmark)]

/-- The support-file plan of `Generate.add_supporting_files`. -/
def support_files : List (Path × String) :=
  [(["readme.md"], SupportFiles.readme),
   ([".clang-format"], SupportFiles.clang_format)]

/-- `Generate.initialize_folder_structure`: if the base directory exists it
is either removed (delete flag) or the run aborts with `FileExistsError`;
then `os.mkdir` creates the base directory. -/
def initialize_folder_structure (cfg : Config) (w : World) : RunResult :=
  if isDirFS w.fs cfg.dir then
    if cfg.delete then
      match rmtree cfg.dir w.fs with
      | .error e => .aborted e w
      | .ok fs₁ =>
        match mkdir cfg.dir fs₁ with
        | .error e => .aborted e { w with fs := fs₁ }
        | .ok fs₂ => .ok { w with fs := fs₂ }
    else .aborted .fileExists w
  else
    match mkdir cfg.dir w.fs with
    | .error e => .aborted e w
    | .ok fs₂ => .ok { w with fs := fs₂ }

/-- `Generate.initialize_git_repo`: `Repo.init` at the base directory and
`git.checkout(b='main')`.  The git library is modelled as always succeeding
and touching only the abstract repository state. -/
def initialize_git_repo (_cfg : Config) (w : World) : RunResult :=
  .ok { w with repo := some { branch := "main", submodules := [] } }

/-- `Generate.build_folder_structure`: `os.mkdir` for each planned
subdirectory under the base directory, in order. -/
def build_folder_structure (cfg : Config) (w : World) : RunResult :=
  liftFS (mkdirs ((folders cfg).map (cfg.dir ++ ·)) w.fs) w

/-- `Generate.create_source_files`: write each source template with the
marker replaced by the derived token. -/
def create_source_files (cfg : Config) (w : World) : RunResult :=
  liftFS
    (writeAll
      ((source_files cfg).map fun pc =>
        (cfg.dir ++ pc.1, pyReplace pc.2 marker (name_for_folder cfg.name)))
      w.fs)
    w

/-- `Generate.build_cmake_structure`: write each planned `CMakeLists.txt`. -/
def build_cmake_structure (cfg : Config) (w : World) : RunResult :=
  liftFS
    (writeAll
      ((cmake_files cfg).map fun pc => (cfg.dir ++ pc.1 ++ ["CMakeLists.txt"], pc.2))
      w.fs)
    w

/-- `Generate.clone_external_dependencies`: `Submodule.add` registers
googletest and/or benchmark on the repository created by
`initialize_git_repo`, conditional on the flags.  The fetched contents of
the third-party repositories are opaque and not modelled. -/
def clone_external_dependencies (cfg : Config) (w : World) : RunResult :=
  match w.repo with
  | none => .aborted .gitError w
  | some r =>
    let r₁ :=
      if cfg.tests then
        { r with submodules := r.submodules ++
            [("googletest", "extern/googletest", "https://github.com/google/googletest.git")] }
      else r
    let r₂ :=
      if cfg.benchmark then
        { r₁ with submodules := r₁.submodules ++
            [("benchmark", "extern/benchmark", "https://github.com/google/benchmark.git")] }
      else r₁
    .ok { w with repo := some r₂ }

/-- `Generate.add_supporting_files`: write the readme and the code-style
configuration verbatim. -/
def add_supporting_files (cfg : Config) (w : World) : RunResult :=
  liftFS (writeAll (support_files.map fun pc => (cfg.dir ++ pc.1, pc.2)) w.fs) w

/-- `Generate.go`: the orchestrator's fixed sequence; an escaped exception
short-circuits the remaining steps. -/
def go (cfg : Config) (w : World) : RunResult :=
  (initialize_folder_structure cfg w).andThen fun w₁ =>
  (initialize_git_repo cfg w₁).andThen fun w₂ =>
  (build_folder_structure cfg w₂).andThen fun w₃ =>
  (create_source_files cfg w₃).andThen fun w₄ =>
  (build_cmake_structure cfg w₄).andThen fun w₅ =>
  (clone_external_dependencies cfg w₅).andThen fun w₆ =>
  add_supporting_files cfg w₆

/-- Python's rendering of `True`/`False`. -/
def pyBoolStr (b : Bool) : String :=
  if b then "True" else "False"

/-- `Generate.print_summary_pre`: the lines printed before any action. -/
def print_summary_pre (cfg : Config) : List String :=
  ["==================================\nPre-action summary of options:\n",
   "Project name: " ++ cfg.name,
   "Project base directory: " ++ String.intercalate "/" cfg.dir,
   "Include Google Test: " ++ pyBoolStr cfg.tests,
   "Include Google Benchmark: " ++ pyBoolStr cfg.benchmark,
   "Delete existing project: " ++ pyBoolStr cfg.delete,
   "==================================\n"]

/-- `str(e)` for the exceptions the script can hit: a bare
`raise FileExistsError` renders empty; the OS errors carry a message whose
exact text is an environment detail. -/
def exceptionText : PyError → String
  | .fileExists => ""
  | .fileNotFound => "[Errno 2] No such file or directory"
  | .notADirectory => "[Errno 20] Not a directory"
  | .isADirectory => "[Errno 21] Is a directory"
  | .gitError => "git command error"

/-- The `__main__` block after argument parsing: print the pre-action
summary, run `Generate.go` under `try`, and on an exception print the error
message; the exception is swallowed, so the interpreter exits normally.
Result: (printed lines, process exit code, final world). -/
def mainRun (cfg : Config) (w : World) : List String × Nat × World :=
  let pre := print_summary_pre cfg
  match go cfg w with
  | .ok w' => (pre, 0, w')
  | .aborted e w' =>
    (pre ++ ["Exiting with error. Project was not fully created. Exception:\n " ++ exceptionText e],
     0, w')

/-- Is `p` a regular file in `fs`? -/
def isFileFS (fs : FS) (p : Path) : Bool :=
  match lookupFS fs p with
  | some (Entry.file _) => true
  | _ => false

/-- Is `p` a regular file in `fs` whose content contains `pat`? -/
def fileContains (fs : FS) (p : Path) (pat : String) : Bool :=
  match lookupFS fs p with
  | some (Entry.file c) => containsStr pat c
  | _ => false

/-- The end-to-end configuration of spec §8: name `FooBar`, base directory
`/tmp/x`, tests and benchmark enabled. -/
def fooBarConfig : Config :=
  { name := "FooBar", dir := ["tmp", "x"], tests := true, benchmark := true,
    delete := false }

/-- A world in which `/tmp` exists and `/tmp/x` does not. -/
def freshWorld : World :=
  { fs := [(["tmp"], Entry.dir)], repo := none }

/-- **C3.** If the base directory already exists and the delete flag is
false, the whole run aborts with `FileExistsError` and the world — the
filesystem and everything in the pre-existing directory — is returned
exactly as it was: no mutation at all. -/
theorem c3_existing_target_aborts_unchanged (cfg : Config) (w : World)
    (hdir : isDirFS w.fs cfg.dir = true) (hdel : cfg.delete = false) :
    go cfg w = .aborted .fileExists w := by
  simp [go, initialize_folder_structure, hdir, hdel, RunResult.andThen]

/-- A world in which the target `/tmp/x` already exists as a directory with
content. -/
def occupiedWorld : World :=
  { fs := [(["tmp"], Entry.dir), (["tmp", "x"], Entry.dir),
           (["tmp", "x", "old.txt"], Entry.file "stale")],
    repo := none }

/-- Witness for C3 at a concrete occupied target. -/
theorem c3_existing_target_aborts_unchanged_witness :
    go fooBarConfig occupiedWorld = .aborted .fileExists occupiedWorld :=
  c3_existing_target_aborts_unchanged fooBarConfig occupiedWorld (by decide) (by decide)

/-- **C10.** If the target path exists as a regular file, the
pre-existing-target handling does not apply: whatever the delete flag is,
nothing is removed, `os.mkdir` fails with `FileExistsError`, and the run
aborts with the world — including the pre-existing file — unchanged. -/
theorem c10_existing_file_target_aborts (cfg : Config) (w : World) (c : String)
    (hfile : lookupFS w.fs cfg.dir = some (Entry.file c)) :
    go cfg w = .aborted .fileExists w := by
  have hnd : isDirFS w.fs cfg.dir = false := by simp [isDirFS, hfile]
  have hsome : (lookupFS w.fs cfg.dir).isSome = true := by simp [hfile]
  simp [go, initialize_folder_structure, hnd, mkdir, hsome, RunResult.andThen]

/-- A world in which the target `/tmp/x` exists as a regular file. -/
def fileTargetWorld : World :=
  { fs := [(["tmp"], Entry.dir), (["tmp", "x"], Entry.file "plain file")],
    repo := none }

/-- Configuration targeting `/tmp/x` with the delete flag set. -/
def deleteFlagConfig : Config :=
  { name := "FooBar", dir := ["tmp", "x"], tests := true, benchmark := true,
    delete := true }

/-- Witness for C10: even with the delete flag set, a file target makes the
run abort with the file left in place. -/
theorem c10_existing_file_target_aborts_witness :
    go deleteFlagConfig fileTargetWorld = .aborted .fileExists fileTargetWorld :=
  c10_existing_file_target_aborts deleteFlagConfig fileTargetWorld "plain file" (by decide)

set_option maxRecDepth 100000 in
/-- **C5.** The end-to-end scenario: with name `FooBar`, tests and benchmark
enabled, against a non-existent `/tmp/x`, the run succeeds and produces the
directory `include/foo_bar/`, the files `src/message.cpp`,
`tests/unit/message_tests.cpp` and `tests/benchmark/message_perf.cpp`, a
top-level `CMakeLists.txt` containing the literal name `FooBar`, and exactly
the two submodules googletest at `extern/googletest` and benchmark at
`extern/benchmark`. -/
theorem c5_end_to_end_foobar :
    (go fooBarConfig freshWorld).isOk = true ∧
    isDirFS ((go fooBarConfig freshWorld).world).fs (["tmp", "x", "include", "foo_bar"]) = true ∧
    isFileFS ((go fooBarConfig freshWorld).world).fs (["tmp", "x", "src", "message.cpp"]) = true ∧
    isFileFS ((go fooBarConfig freshWorld).world).fs
      (["tmp", "x", "tests", "unit", "message_tests.cpp"]) = true ∧
    isFileFS ((go fooBarConfig freshWorld).world).fs
      (["tmp", "x", "tests", "benchmark", "message_perf.cpp"]) = true ∧
    fileContains ((go fooBarConfig freshWorld).world).fs (["tmp", "x", "CMakeLists.txt"])
      ("FooBar") = true ∧
    ((go fooBarConfig freshWorld).world).repo =
      some { branch := "main",
             submodules :=
               [("googletest", "extern/googletest", "https://github.com/google/googletest.git"),
                ("benchmark", "extern/benchmark", "https://github.com/google/benchmark.git")] } := by
  decide

/-- **C4, counterexample.** A run that fails (target exists, delete flag
clear) still terminates with exit code `0`: the `except` block prints and
swallows the exception, and nothing sets a non-zero exit status.  This
refutes the claim that every failing run exits non-zero. -/
theorem c4_counterexample_exit_code_zero :
    (go fooBarConfig occupiedWorld).isOk = false ∧
    (mainRun fooBarConfig occupiedWorld).2.1 = 0 := by
  decide

/-- **C4, amended.** On any failing run the process prints the pre-action
summary of the configuration (it was printed before the attempt), prints
the error message, and terminates with exit code `0` — not non-zero: the
exception is caught and the interpreter exits normally. -/
theorem c4_amended_failing_run_output (cfg : Config) (w : World) (e : PyError)
    (w' : World) (h : go cfg w = .aborted e w') :
    mainRun cfg w =
      (print_summary_pre cfg ++
        ["Exiting with error. Project was not fully created. Exception:\n " ++ exceptionText e],
       0, w') := by
  simp [mainRun, h]

/-- Witness for the amended C4 at a concrete failing run. -/
theorem c4_amended_failing_run_output_witness :
    mainRun fooBarConfig occupiedWorld =
      (print_summary_pre fooBarConfig ++
        ["Exiting with error. Project was not fully created. Exception:\n " ++
          exceptionText PyError.fileExists],
       0, occupiedWorld) :=
  c4_amended_failing_run_output fooBarConfig occupiedWorld PyError.fileExists
    occupiedWorld (by decide)

theorem andThen_ok {r : RunResult} {f : World → RunResult} {w' : World}
    (h : r.andThen f = .ok w') : ∃ w₁, r = .ok w₁ ∧ f w₁ = .ok w' := by
  cases r with
  | ok w₁ => exact ⟨w₁, rfl, h⟩
  | aborted e w₁ => exact nomatch h

theorem mkdir_ok {p : Path} {fs fs' : FS} (h : mkdir p fs = .ok fs') :
    fs' = (p, Entry.dir) :: fs ∧ lookupFS fs p = none := by
  unfold mkdir at h
  by_cases h1 : (lookupFS fs p).isSome = true
  · rw [if_pos h1] at h
    exact nomatch h
  · rw [if_neg h1] at h
    by_cases h2 : (p.dropLast.isEmpty || isDirFS fs p.dropLast) = true
    · rw [if_pos h2] at h
      cases h
      exact ⟨rfl, Option.not_isSome_iff_eq_none.mp h1⟩
    · rw [if_neg h2] at h
      exact nomatch h

theorem writeFile_ok {p : Path} {c : String} {fs fs' : FS}
    (h : writeFile p c fs = .ok fs') : fs' = (p, Entry.file c) :: fs := by
  unfold writeFile at h
  by_cases h1 : isDirFS fs p = true
  · rw [if_pos h1] at h
    exact nomatch h
  · rw [if_neg h1] at h
    by_cases h2 : (p.dropLast.isEmpty || isDirFS fs p.dropLast) = true
    · rw [if_pos h2] at h
      cases h
      rfl
    · rw [if_neg h2] at h
      exact nomatch h

theorem mkdirs_ok : ∀ (l : List Path) (fs fs' : FS),
    mkdirs l fs = (fs', none) →
    fs' = (l.map fun p => (p, Entry.dir)).reverse ++ fs := by
  intro l
  induction l with
  | nil =>
    intro fs fs' h
    cases h
    rfl
  | cons p rest ih =>
    intro fs fs' h
    unfold mkdirs at h
    cases hm : mkdir p fs with
    | error e =>
      rw [hm] at h
      cases h
    | ok fs₁ =>
      rw [hm] at h
      rw [ih fs₁ fs' h, (mkdir_ok hm).1]
      simp

theorem mkdirs_lookup : ∀ (l : List Path) (fs fs' : FS),
    mkdirs l fs = (fs', none) → ∀ q ∈ l, lookupFS fs q = none := by
  intro l
  induction l with
  | nil =>
    intro fs fs' _ q hq
    exact absurd hq (by simp)
  | cons p rest ih =>
    intro fs fs' h q hq
    unfold mkdirs at h
    cases hm : mkdir p fs with
    | error e =>
      rw [hm] at h
      cases h
    | ok fs₁ =>
      rw [hm] at h
      rcases List.mem_cons.mp hq with rfl | hq'
      · exact (mkdir_ok hm).2
      · have hl := ih fs₁ fs' h q hq'
        rw [(mkdir_ok hm).1] at hl
        by_cases hpq : p = q
        · rw [show lookupFS ((p, Entry.dir) :: fs) q = some Entry.dir by
            simp [lookupFS, hpq]] at hl
          exact nomatch hl
        · rwa [show lookupFS ((p, Entry.dir) :: fs) q = lookupFS fs q by
            simp [lookupFS, hpq]] at hl

theorem mkdirs_nodup : ∀ (l : List Path) (fs fs' : FS),
    mkdirs l fs = (fs', none) → l.Nodup := by
  intro l
  induction l with
  | nil => intro _ _ _; simp
  | cons p rest ih =>
    intro fs fs' h
    unfold mkdirs at h
    cases hm : mkdir p fs with
    | error e =>
      rw [hm] at h
      cases h
    | ok fs₁ =>
      rw [hm] at h
      rw [List.nodup_cons]
      refine ⟨fun hmem => ?_, ih fs₁ fs' h⟩
      have hl := mkdirs_lookup rest fs₁ fs' h p hmem
      rw [(mkdir_ok hm).1] at hl
      simp [lookupFS] at hl

theorem writeAll_ok : ∀ (l : List (Path × String)) (fs fs' : FS),
    writeAll l fs = (fs', none) →
    fs' = (l.map fun pc => (pc.1, Entry.file pc.2)).reverse ++ fs := by
  intro l
  induction l with
  | nil =>
    intro fs fs' h
    cases h
    rfl
  | cons pc rest ih =>
    intro fs fs' h
    obtain ⟨p, c⟩ := pc
    unfold writeAll at h
    cases hm : writeFile p c fs with
    | error e =>
      rw [hm] at h
      cases h
    | ok fs₁ =>
      rw [hm] at h
      rw [ih fs₁ fs' h, writeFile_ok hm]
      simp

theorem lookupFS_append (l₁ l₂ : FS) (p : Path) :
    lookupFS (l₁ ++ l₂) p = ((lookupFS l₁ p).orElse fun _ => lookupFS l₂ p) := by
  induction l₁ with
  | nil => simp [lookupFS, Option.orElse]
  | cons qe rest ih =>
    obtain ⟨q, e⟩ := qe
    by_cases hq : q = p
    · simp [lookupFS, hq, Option.orElse]
    · simp [lookupFS, hq, Option.orElse] at ih ⊢
      exact ih

/-- After `rmtree d`, nothing at or below `d` is left. -/
theorem lookupFS_filter_not_under (d p : Path) (fs : FS)
    (hp : d.isPrefixOf p = true) :
    lookupFS (fs.filter fun qe => !(d.isPrefixOf qe.1)) p = none := by
  induction fs with
  | nil => rfl
  | cons qe rest ih =>
    rw [List.filter_cons]
    by_cases hk : (!(d.isPrefixOf qe.1)) = true
    · rw [if_pos hk]
      obtain ⟨q, e⟩ := qe
      by_cases hq : q = p
      · subst hq
        simp only [Bool.not_eq_true'] at hk
        rw [hp] at hk
        exact nomatch hk
      · simpa [lookupFS, hq] using ih
    · rw [if_neg hk]
      exact ih

/-- In a world with nothing strictly below `d`, a path strictly below `d`
has no entry. -/
theorem lookupFS_none_of_clean (d p : Path) (fs : FS)
    (hclean : ∀ qe ∈ fs, d.isPrefixOf qe.1 = true → qe.1 = d)
    (hp : d.isPrefixOf p = true) (hne : p ≠ d) :
    lookupFS fs p = none := by
  induction fs with
  | nil => rfl
  | cons qe rest ih =>
    obtain ⟨q, e⟩ := qe
    by_cases hq : q = p
    · subst hq
      exact absurd (hclean (q, e) (by simp) hp) hne
    · rw [show lookupFS ((q, e) :: rest) p = lookupFS rest p by simp [lookupFS, hq]]
      exact ih fun x hx => hclean x (by simp [hx])

theorem isPrefixOf_self_append (d t : Path) : d.isPrefixOf (d ++ t) = true := by
  induction d with
  | nil => cases t <;> rfl
  | cons a as ih => simp [List.isPrefixOf, ih]

/-- Characterization of a successful `initialize_folder_structure`: the
repository is untouched and the filesystem gains the fresh base directory,
either on top of the cleansed filesystem (delete path) or on top of the
original one (fresh path). -/
theorem initialize_folder_structure_ok {cfg : Config} {w w₁ : World}
    (h : initialize_folder_structure cfg w = .ok w₁) :
    w₁.repo = w.repo ∧
    ((isDirFS w.fs cfg.dir = true ∧ cfg.delete = true ∧
        w₁.fs = (cfg.dir, Entry.dir) ::
          (w.fs.filter fun qe => !(cfg.dir.isPrefixOf qe.1))) ∨
      (isDirFS w.fs cfg.dir = false ∧
        w₁.fs = (cfg.dir, Entry.dir) :: w.fs)) := by
  unfold initialize_folder_structure at h
  by_cases hd : isDirFS w.fs cfg.dir = true
  · rw [if_pos hd] at h
    by_cases hdel : cfg.delete = true
    · rw [if_pos hdel] at h
      split at h
      next e heq => exact nomatch h
      next fs₁ heq =>
        have hfs₁ : fs₁ = w.fs.filter fun qe => !(cfg.dir.isPrefixOf qe.1) := by
          unfold rmtree at heq
          rw [if_pos hd] at heq
          cases heq
          rfl
        split at h
        next e heq₂ => exact nomatch h
        next fs₂ heq₂ =>
          cases h
          exact ⟨rfl, Or.inl ⟨hd, hdel, by rw [(mkdir_ok heq₂).1, hfs₁]⟩⟩
    · rw [if_neg hdel] at h
      exact nomatch h
  · rw [if_neg hd] at h
    split at h
    next e heq => exact nomatch h
    next fs₂ heq =>
      cases h
      exact ⟨rfl, Or.inr ⟨Bool.eq_false_iff.mpr hd, (mkdir_ok heq).1⟩⟩

theorem mkdirs_ok₂ (l : List Path) (fs : FS) (h : (mkdirs l fs).2 = none) :
    (mkdirs l fs).1 = (l.map fun p => (p, Entry.dir)).reverse ++ fs :=
  mkdirs_ok l fs _ (by rw [← h])

theorem mkdirs_nodup₂ (l : List Path) (fs : FS) (h : (mkdirs l fs).2 = none) :
    l.Nodup :=
  mkdirs_nodup l fs _ (by rw [← h])

theorem writeAll_ok₂ (l : List (Path × String)) (fs : FS)
    (h : (writeAll l fs).2 = none) :
    (writeAll l fs).1 = (l.map fun pc => (pc.1, Entry.file pc.2)).reverse ++ fs :=
  writeAll_ok l fs _ (by rw [← h])

/-- A successful `mkdirs` step creates exactly its planned directories on
top of the filesystem, touches nothing else, and its plan has no duplicate
paths. -/
theorem liftFS_mkdirs_ok {l : List Path} {w w' : World}
    (h : liftFS (mkdirs l w.fs) w = .ok w') :
    w'.fs = (l.map fun p => (p, Entry.dir)).reverse ++ w.fs ∧
    w'.repo = w.repo ∧ l.Nodup := by
  unfold liftFS at h
  split at h
  next heq =>
    cases h
    exact ⟨mkdirs_ok₂ _ _ heq, rfl, mkdirs_nodup₂ _ _ heq⟩
  next e heq => exact nomatch h

/-- A successful `writeAll` step creates exactly its planned files on top of
the filesystem and touches nothing else. -/
theorem liftFS_writeAll_ok {l : List (Path × String)} {w w' : World}
    (h : liftFS (writeAll l w.fs) w = .ok w') :
    w'.fs = (l.map fun pc => (pc.1, Entry.file pc.2)).reverse ++ w.fs ∧
    w'.repo = w.repo := by
  unfold liftFS at h
  split at h
  next heq =>
    cases h
    exact ⟨writeAll_ok₂ _ _ heq, rfl⟩
  next e heq => exact nomatch h

/-- The filesystem on top of which a successful run builds its tree: the
cleansed filesystem when the base directory pre-existed (delete path), the
original one otherwise. -/
def baseFS (cfg : Config) (w : World) : FS :=
  if isDirFS w.fs cfg.dir then w.fs.filter fun qe => !(cfg.dir.isPrefixOf qe.1)
  else w.fs

/-- Every filesystem entry a successful run creates, in the order in which
lookups resolve them (most recent binding first). -/
def generatedEntries (cfg : Config) : FS :=
  (support_files.map fun pc => (cfg.dir ++ pc.1, Entry.file pc.2)).reverse ++
  ((cmake_files cfg).map fun pc =>
      (cfg.dir ++ pc.1 ++ ["CMakeLists.txt"], Entry.file pc.2)).reverse ++
  ((source_files cfg).map fun pc =>
      (cfg.dir ++ pc.1,
        Entry.file (pyReplace pc.2 marker (name_for_folder cfg.name)))).reverse ++
  ((folders cfg).map fun p => (cfg.dir ++ p, Entry.dir)).reverse ++
  [(cfg.dir, Entry.dir)]

/-- The submodules a successful run registers. -/
def finalSubmodules (cfg : Config) : List (String × String × String) :=
  (if cfg.tests then
    [("googletest", "extern/googletest", "https://github.com/google/googletest.git")]
   else []) ++
  (if cfg.benchmark then
    [("benchmark", "extern/benchmark", "https://github.com/google/benchmark.git")]
   else [])

/-- A successful `clone_external_dependencies` on the fresh repository
leaves the filesystem alone and registers the flag-dependent submodules. -/
theorem clone_external_dependencies_ok {cfg : Config} {w w' : World}
    (hrepo : w.repo = some { branch := "main", submodules := [] })
    (h : clone_external_dependencies cfg w = .ok w') :
    w'.fs = w.fs ∧
    w'.repo = some { branch := "main", submodules := finalSubmodules cfg } := by
  unfold clone_external_dependencies at h
  split at h
  next heq => rw [hrepo] at heq; exact nomatch heq
  next r heq =>
    rw [hrepo] at heq
    have hr : r = { branch := "main", submodules := [] } :=
      (Option.some.inj heq).symm
    subst hr
    cases h
    refine ⟨rfl, ?_⟩
    unfold finalSubmodules
    cases ht : cfg.tests <;> cases hb : cfg.benchmark <;> simp

/-- Characterization of every successful run: the final filesystem is the
generated tree stacked on the base filesystem, the repository holds branch
`main` with the flag-dependent submodules, and the derived token has at
least one path component. -/
theorem go_ok_char {cfg : Config} {w w' : World} (h : go cfg w = .ok w') :
    w'.fs = generatedEntries cfg ++ baseFS cfg w ∧
    w'.repo = some { branch := "main", submodules := finalSubmodules cfg } ∧
    splitSlash (name_for_folder cfg.name) ≠ [] := by
  unfold go at h
  obtain ⟨w₁, h1, h⟩ := andThen_ok h
  obtain ⟨w₂, h2, h⟩ := andThen_ok h
  obtain ⟨w₃, h3, h⟩ := andThen_ok h
  obtain ⟨w₄, h4, h⟩ := andThen_ok h
  obtain ⟨w₅, h5, h⟩ := andThen_ok h
  obtain ⟨w₆, h6, h7⟩ := andThen_ok h
  have e1 : w₁.fs = (cfg.dir, Entry.dir) :: baseFS cfg w := by
    rcases (initialize_folder_structure_ok h1).2 with ⟨hd, _, hfs⟩ | ⟨hd, hfs⟩
    · rw [hfs, baseFS, if_pos hd]
    · rw [hfs, baseFS, if_neg (by simp [hd])]
  have hw₂ : w₂ = { w₁ with repo := some { branch := "main", submodules := [] } } := by
    unfold initialize_git_repo at h2
    cases h2
    rfl
  subst hw₂
  unfold build_folder_structure at h3
  obtain ⟨e3, r3, nd3⟩ := liftFS_mkdirs_ok h3
  unfold create_source_files at h4
  obtain ⟨e4, r4⟩ := liftFS_writeAll_ok h4
  unfold build_cmake_structure at h5
  obtain ⟨e5, r5⟩ := liftFS_writeAll_ok h5
  have hrepo5 : w₅.repo = some { branch := "main", submodules := [] } := by
    rw [r5, r4, r3]
  obtain ⟨e6, r6⟩ := clone_external_dependencies_ok hrepo5 h6
  unfold add_supporting_files at h7
  obtain ⟨e7, r7⟩ := liftFS_writeAll_ok h7
  refine ⟨?_, ?_, ?_⟩
  · rw [e7, e6, e5, e4, e3]
    show _ ++ (_ ++ (_ ++ (_ ++ ({ w₁ with
        repo := some { branch := "main", submodules := [] } } : World).fs))) = _
    rw [show ({ w₁ with repo := some { branch := "main", submodules := [] } } :
        World).fs = w₁.fs from rfl, e1, generatedEntries]
    simp [List.append_assoc, Function.comp_def]
  · rw [r7, r6]
  · have hnd := nd3
    intro hs
    rw [folders] at hnd
    simp [hs, List.nodup_cons] at hnd

theorem lookupFS_baseFS_none (cfg : Config) (w : World) (p : Path)
    (hclean : ∀ qe ∈ w.fs, cfg.dir.isPrefixOf qe.1 = true → qe.1 = cfg.dir)
    (hp : cfg.dir.isPrefixOf p = true) (hne : p ≠ cfg.dir) :
    lookupFS (baseFS cfg w) p = none := by
  unfold baseFS
  split
  · exact lookupFS_filter_not_under _ _ _ hp
  · exact lookupFS_none_of_clean _ _ _ hclean hp hne

/-- **C6.** When the target directory pre-exists and the delete flag is set,
the prior contents at the target are removed before creation: on success
the final filesystem is exactly the freshly generated tree on top of the
old filesystem purged of the target directory and everything below it —
none of the prior contents remain. -/
theorem c6_delete_flag_replaces_tree (cfg : Config) (w w' : World)
    (hdir : isDirFS w.fs cfg.dir = true) (_hdel : cfg.delete = true)
    (hrun : go cfg w = .ok w') :
    w'.fs = generatedEntries cfg ++
      (w.fs.filter fun qe => !(cfg.dir.isPrefixOf qe.1)) := by
  have hfs := (go_ok_char hrun).1
  unfold baseFS at hfs
  rwa [if_pos hdir] at hfs

set_option maxRecDepth 1000000 in
/-- Witness for C6 at a concrete occupied target with the delete flag. -/
theorem c6_delete_flag_replaces_tree_witness :
    ((go deleteFlagConfig occupiedWorld).world).fs =
      generatedEntries deleteFlagConfig ++
        (occupiedWorld.fs.filter fun qe =>
          !(deleteFlagConfig.dir.isPrefixOf qe.1)) :=
  c6_delete_flag_replaces_tree deleteFlagConfig occupiedWorld _
    (by decide) (by decide) (by rfl)

set_option maxRecDepth 1000000 in
/-- **C9, counterexample.** In the successful FooBar run, the created
subdirectories `docs/` and `include/foo_bar/` receive no `CMakeLists.txt`,
refuting "one build descriptor in each subdirectory created by the
Filesystem Builder". -/
theorem c9_counterexample_missing_cmake :
    (go fooBarConfig freshWorld).isOk = true ∧
    isDirFS ((go fooBarConfig freshWorld).world).fs (["tmp", "x", "docs"]) = true ∧
    lookupFS ((go fooBarConfig freshWorld).world).fs
      (["tmp", "x", "docs", "CMakeLists.txt"]) = none ∧
    isDirFS ((go fooBarConfig freshWorld).world).fs
      (["tmp", "x", "include", "foo_bar"]) = true ∧
    lookupFS ((go fooBarConfig freshWorld).world).fs
      (["tmp", "x", "include", "foo_bar", "CMakeLists.txt"]) = none := by
  decide

/-- **C9, amended.** A successful run (into a location with nothing strictly
below the target) emits the fixed top-level build descriptor plus one
`CMakeLists.txt` in each of `app`, `extern`, `include`, `src`, `tests`,
`tests/unit` and `tests/benchmark` — but none in `docs` or in the
per-project header directory `include/<token>`. -/
theorem c9_amended_cmake_placement (cfg : Config) (w w' : World)
    (hclean : ∀ qe ∈ w.fs, cfg.dir.isPrefixOf qe.1 = true → qe.1 = cfg.dir)
    (hrun : go cfg w = .ok w') :
    lookupFS w'.fs (cfg.dir ++ ["CMakeLists.txt"]) =
      some (Entry.file (pyReplace CmakeFiles.top_level marker cfg.name)) ∧
    lookupFS w'.fs (cfg.dir ++ ["app", "CMakeLists.txt"]) =
      some (Entry.file CmakeFiles.app) ∧
    lookupFS w'.fs (cfg.dir ++ ["extern", "CMakeLists.txt"]) =
      some (Entry.file CmakeFiles.externFolder) ∧
    lookupFS w'.fs (cfg.dir ++ ["include", "CMakeLists.txt"]) =
      some (Entry.file CmakeFiles.includes) ∧
    lookupFS w'.fs (cfg.dir ++ ["src", "CMakeLists.txt"]) =
      some (Entry.file CmakeFiles.src) ∧
    lookupFS w'.fs (cfg.dir ++ ["tests", "CMakeLists.txt"]) =
      some (Entry.file CmakeFiles.tests) ∧
    lookupFS w'.fs (cfg.dir ++ ["tests", "unit", "CMakeLists.txt"]) =
      some (Entry.file CmakeFiles.tests_unit) ∧
    lookupFS w'.fs (cfg.dir ++ ["tests", "benchmark", "CMakeLists.txt"]) =
      some (Entry.file CmakeFiles.tests_benchmark) ∧
    lookupFS w'.fs (cfg.dir ++ ["docs", "CMakeLists.txt"]) = none ∧
    lookupFS w'.fs (cfg.dir ++ ["include"] ++
      splitSlash (name_for_folder cfg.name) ++ ["CMakeLists.txt"]) = none := by
  obtain ⟨hfs, -, hsplit⟩ := go_ok_char hrun
  obtain ⟨s₀, srest, hsp⟩ := List.exists_cons_of_ne_nil hsplit
  refine ⟨?_, ?_, ?_, ?_, ?_, ?_, ?_, ?_, ?_, ?_⟩ <;>
    rw [hfs, lookupFS_append] <;>
    simp only [generatedEntries, support_files, cmake_files, source_files, folders,
      List.map_cons, List.map_nil, List.reverse_cons, List.reverse_nil,
      List.nil_append, List.append_nil, List.cons_append, List.append_assoc,
      lookupFS, hsp, List.append_right_inj, Option.orElse]
  · simp
  · simp
  · simp
  · simp
  · simp
  · simp
  · simp
  · simp
  · simp
    exact lookupFS_baseFS_none cfg w _ hclean (isPrefixOf_self_append _ _) (by simp)
  · simp
    exact lookupFS_baseFS_none cfg w _ hclean (isPrefixOf_self_append _ _) (by simp)

set_option maxRecDepth 1000000 in
/-- Witness for the amended C9 at the concrete FooBar run: the top-level
build descriptor is present and `docs/CMakeLists.txt` is absent. -/
theorem c9_amended_cmake_placement_witness :
    lookupFS ((go fooBarConfig freshWorld).world).fs
      (fooBarConfig.dir ++ ["CMakeLists.txt"]) =
      some (Entry.file (pyReplace CmakeFiles.top_level marker fooBarConfig.name)) ∧
    lookupFS ((go fooBarConfig freshWorld).world).fs
      (fooBarConfig.dir ++ ["docs", "CMakeLists.txt"]) = none :=
  have h := c9_amended_cmake_placement fooBarConfig freshWorld _ (by decide) (by rfl)
  ⟨h.1, h.2.2.2.2.2.2.2.2.1⟩

set_option maxRecDepth 1000000 in
/-- **C2, counterexample.** The top-level build descriptor is built from a
template containing the marker, but its rendering substitutes the raw
project name, not the derived lowercase token: for name `FooBar` the
emitted content differs from the token rendering and contains `FooBar`.
This refutes "no generated file receives any substitution other than the
derived token". -/
theorem c2_counterexample_top_level_raw_name :
    lookupFS ((go fooBarConfig freshWorld).world).fs (["tmp", "x", "CMakeLists.txt"]) =
      some (Entry.file (pyReplace CmakeFiles.top_level marker ("FooBar"))) ∧
    pyReplace CmakeFiles.top_level marker ("FooBar") ≠
      pyReplace CmakeFiles.top_level marker (name_for_folder ("FooBar")) ∧
    containsStr ("FooBar") (pyReplace CmakeFiles.top_level marker ("FooBar")) = true ∧
    containsStr marker (pyReplace CmakeFiles.top_level marker ("FooBar")) = false := by
  decide

set_option maxRecDepth 1000000 in
/-- **C2, amended.** In every successful run, each emitted file built from a
marker-bearing template has its marker substituted: the four source files
receive the derived lowercase token, while the top-level build descriptor
receives the raw project name; in the FooBar scenario no emitted file
content retains the marker. -/
theorem c2_amended_marker_substitution (cfg : Config) (w w' : World)
    (hrun : go cfg w = .ok w') :
    (lookupFS w'.fs (cfg.dir ++ ["app", "main.cpp"]) =
      some (Entry.file (pyReplace SourceFiles.app marker (name_for_folder cfg.name))) ∧
    lookupFS w'.fs (cfg.dir ++ ["src", "message.cpp"]) =
      some (Entry.file
        (pyReplace SourceFiles.src_message_cpp marker (name_for_folder cfg.name))) ∧
    lookupFS w'.fs (cfg.dir ++ ["tests", "unit", "message_tests.cpp"]) =
      some (Entry.file
        (pyReplace SourceFiles.tests_unit marker (name_for_folder cfg.name))) ∧
    lookupFS w'.fs (cfg.dir ++ ["tests", "benchmark", "message_perf.cpp"]) =
      some (Entry.file
        (pyReplace SourceFiles.tests_benchmark marker (name_for_folder cfg.name))) ∧
    lookupFS w'.fs (cfg.dir ++ ["CMakeLists.txt"]) =
      some (Entry.file (pyReplace CmakeFiles.top_level marker cfg.name))) ∧
    (((go fooBarConfig freshWorld).world).fs.all fun qe =>
      match qe.2 with
      | Entry.dir => true
      | Entry.file c => !containsStr marker c) = true := by
  obtain ⟨hfs, -, hsplit⟩ := go_ok_char hrun
  obtain ⟨s₀, srest, hsp⟩ := List.exists_cons_of_ne_nil hsplit
  refine ⟨⟨?_, ?_, ?_, ?_, ?_⟩, by decide⟩ <;>
    rw [hfs, lookupFS_append] <;>
    simp only [generatedEntries, support_files, cmake_files, source_files, folders,
      List.map_cons, List.map_nil, List.reverse_cons, List.reverse_nil,
      List.nil_append, List.append_nil, List.cons_append, List.append_assoc,
      lookupFS, hsp, List.append_right_inj, Option.orElse] <;>
    simp

set_option maxRecDepth 1000000 in
/-- Witness for the amended C2 at the concrete FooBar run. -/
theorem c2_amended_marker_substitution_witness :
    lookupFS ((go fooBarConfig freshWorld).world).fs
      (fooBarConfig.dir ++ ["src", "message.cpp"]) =
      some (Entry.file (pyReplace SourceFiles.src_message_cpp marker
        (name_for_folder fooBarConfig.name))) ∧
    lookupFS ((go fooBarConfig freshWorld).world).fs
      (fooBarConfig.dir ++ ["CMakeLists.txt"]) =
      some (Entry.file (pyReplace CmakeFiles.top_level marker fooBarConfig.name)) :=
  have h := c2_amended_marker_substitution fooBarConfig freshWorld _ (by rfl)
  ⟨h.1.2.1, h.1.2.2.2.2⟩

/-- The step names of `Generate.go`, in orchestration order. -/
def stepNames : List String :=
  ["initialize_folder_structure", "initialize_git_repo", "build_folder_structure",
   "create_source_files", "build_cmake_structure", "clone_external_dependencies",
   "add_supporting_files"]

/-- The orchestrated steps of `Generate.go`, paired with their names. -/
def labelledSteps (cfg : Config) : List (String × (World → RunResult)) :=
  [("initialize_folder_structure", initialize_folder_structure cfg),
   ("initialize_git_repo", initialize_git_repo cfg),
   ("build_folder_structure", build_folder_structure cfg),
   ("create_source_files", create_source_files cfg),
   ("build_cmake_structure", build_cmake_structure cfg),
   ("clone_external_dependencies", clone_external_dependencies cfg),
   ("add_supporting_files", add_supporting_files cfg)]

/-- Run a list of steps in order, stopping at the first failure. -/
def runSteps : List (World → RunResult) → World → RunResult
  | [], w => .ok w
  | s :: rest, w =>
    match s w with
    | .ok w₁ => runSteps rest w₁
    | .aborted e w₁ => .aborted e w₁

/-- Run labelled steps in order, also recording the name of every step that
started. -/
def runStepsTraced : List (String × (World → RunResult)) → World →
    RunResult × List String
  | [], w => (.ok w, [])
  | (n, s) :: rest, w =>
    match s w with
    | .ok w₁ =>
      let r := runStepsTraced rest w₁
      (r.1, n :: r.2)
    | .aborted e w₁ => (.aborted e w₁, [n])

/-- `Generate.go`, instrumented with the execution trace. -/
def goTraced (cfg : Config) (w : World) : RunResult × List String :=
  runStepsTraced (labelledSteps cfg) w

/-- The trace of a traced run is the prefix of the step names of the
started steps, and the result is exactly the result of running that
prefix. -/
theorem runStepsTraced_take (l : List (String × (World → RunResult))) :
    ∀ w : World,
      (runStepsTraced l w).2 =
        (l.map Prod.fst).take (runStepsTraced l w).2.length ∧
      (runStepsTraced l w).1 =
        runSteps ((l.map Prod.snd).take (runStepsTraced l w).2.length) w := by
  induction l with
  | nil =>
    intro w
    exact ⟨rfl, rfl⟩
  | cons ns rest ih =>
    intro w
    obtain ⟨n, s⟩ := ns
    cases hs : s w with
    | ok w₁ =>
      constructor
      · simp only [runStepsTraced, hs, List.map_cons, List.length_cons,
          List.take_succ_cons, List.cons.injEq, true_and]
        exact (ih w₁).1
      · simp only [runStepsTraced, hs, List.map_cons, List.length_cons,
          List.take_succ_cons, runSteps]
        exact (ih w₁).2
    | aborted e w₁ =>
      constructor
      · simp [runStepsTraced, hs]
      · simp [runStepsTraced, hs, runSteps]

/-- The traced orchestrator computes `Generate.go`, and a successful run
executes every step. -/
theorem goTraced_go (cfg : Config) (w : World) :
    (goTraced cfg w).1 = go cfg w ∧
    ((go cfg w).isOk = true → (goTraced cfg w).2 = stepNames) := by
  unfold goTraced labelledSteps go stepNames
  cases h1 : initialize_folder_structure cfg w with
  | aborted e w₁ => simp [runStepsTraced, RunResult.andThen, RunResult.isOk, h1]
  | ok w₁ =>
    cases h2 : initialize_git_repo cfg w₁ with
    | aborted e w₂ =>
      simp [runStepsTraced, RunResult.andThen, RunResult.isOk, h1, h2]
    | ok w₂ =>
      cases h3 : build_folder_structure cfg w₂ with
      | aborted e w₃ =>
        simp [runStepsTraced, RunResult.andThen, RunResult.isOk, h1, h2, h3]
      | ok w₃ =>
        cases h4 : create_source_files cfg w₃ with
        | aborted e w₄ =>
          simp [runStepsTraced, RunResult.andThen, RunResult.isOk, h1, h2, h3, h4]
        | ok w₄ =>
          cases h5 : build_cmake_structure cfg w₄ with
          | aborted e w₅ =>
            simp [runStepsTraced, RunResult.andThen, RunResult.isOk,
              h1, h2, h3, h4, h5]
          | ok w₅ =>
            cases h6 : clone_external_dependencies cfg w₅ with
            | aborted e w₆ =>
              simp [runStepsTraced, RunResult.andThen, RunResult.isOk,
                h1, h2, h3, h4, h5, h6]
            | ok w₆ =>
              cases h7 : add_supporting_files cfg w₆ with
              | aborted e w₇ =>
                simp [runStepsTraced, RunResult.andThen, RunResult.isOk,
                  h1, h2, h3, h4, h5, h6, h7]
              | ok w₇ =>
                simp [runStepsTraced, RunResult.andThen, RunResult.isOk,
                  h1, h2, h3, h4, h5, h6, h7]

/-- **C7.** The orchestrator runs its seven steps in the fixed order
(base-directory creation, repository initialization, subdirectory creation,
source-file emission, build-file emission, dependency linking, support-file
emission): the recorded trace of any run is a prefix of that order, the
run's result is exactly the result of running the started prefix — so the
first failure prevents every later step and nothing already written is
cleaned up — a fully successful run executes all seven, repository
initialization only ever runs once the base directory exists, and it
strictly precedes dependency linking in the order. -/
theorem c7_orchestrator_fixed_sequence (cfg : Config) (w : World) :
    (goTraced cfg w).1 = go cfg w ∧
    (goTraced cfg w).2 = stepNames.take (goTraced cfg w).2.length ∧
    (goTraced cfg w).1 =
      runSteps (((labelledSteps cfg).map Prod.snd).take
        (goTraced cfg w).2.length) w ∧
    ((go cfg w).isOk = true → (goTraced cfg w).2 = stepNames) ∧
    (match initialize_folder_structure cfg w with
     | .ok w₁ => isDirFS w₁.fs cfg.dir = true
     | .aborted _ _ => True) ∧
    stepNames.indexOf ("initialize_git_repo") <
      stepNames.indexOf ("clone_external_dependencies") := by
  refine ⟨(goTraced_go cfg w).1, ?_, ?_, (goTraced_go cfg w).2, ?_, by decide⟩
  · have h := (runStepsTraced_take (labelledSteps cfg) w).1
    rw [show (labelledSteps cfg).map Prod.fst = stepNames from rfl] at h
    exact h
  · exact (runStepsTraced_take (labelledSteps cfg) w).2
  · cases h1 : initialize_folder_structure cfg w with
    | aborted e w₁ => trivial
    | ok w₁ =>
      rcases (initialize_folder_structure_ok h1).2 with ⟨-, -, hfs⟩ | ⟨-, hfs⟩ <;>
        simp [isDirFS, hfs, lookupFS]

set_option maxRecDepth 1000000 in
/-- Witness for C7 at the concrete FooBar run: the successful run's trace
is the full step order and the traced result is the run's result. -/
theorem c7_orchestrator_fixed_sequence_witness :
    (goTraced fooBarConfig freshWorld).2 = stepNames ∧
    (goTraced fooBarConfig freshWorld).1 = go fooBarConfig freshWorld :=
  ⟨(c7_orchestrator_fixed_sequence fooBarConfig freshWorld).2.2.2.1 (by decide),
   (c7_orchestrator_fixed_sequence fooBarConfig freshWorld).1⟩

end GenC